import Mathlib

/-!
Verification of the sitespeed.io release-comparison scripts.

The repository contains two near-duplicate report generators:
* `compare-results.js` (pairwise mode): compares a `before.json` and an
  `after.json` and renders one HTML table.
* `scripts/compare-results.js` (batch mode): discovers `release-<N>`
  directories, extracts Google Web Vitals metrics per release, computes
  deltas against the immediately preceding release, a log-normal
  Lighthouse-style score per metric, and a weighted aggregate score.

This file shallowly embeds those scripts.  JavaScript numbers are modelled
as `ℚ` where the code only does field arithmetic and comparisons (metric
extraction, deltas, percent deltas) and as `ℝ` where the code calls
`Math.log` / `Math.exp` / `Math.sqrt` (the scoring pipeline); `Math.round`
(round half toward positive infinity) is `round` (`round x = ⌊x + 1/2⌋`).
JavaScript `null`/`undefined` results are modelled with `Option`, and the
`NaN` produced by `0/0` in the aggregate score is modelled by `none` at the
single place it can arise.  File I/O is modelled by passing the outcome of
`JSON.parse` (`Option` of a parsed document) as an explicit argument.
-/

namespace CompareResults

/-- The five Web Vitals metrics handled by `extractMetrics`, in the
insertion order of the object literal it returns (`TTFB`, `FCP`, `LCP`,
`TBT`, `CLS`), which is also the `Object.keys` iteration order used by
`compareMetrics` and `compareReleases`. -/
inductive MetricName where
  | TTFB
  | FCP
  | LCP
  | TBT
  | CLS
deriving DecidableEq

/-- `Object.keys` order of the metric-set object built by `extractMetrics`. -/
def metricNames : List MetricName :=
  [MetricName.TTFB, MetricName.FCP, MetricName.LCP, MetricName.TBT, MetricName.CLS]

/-- The `metricUnits` map of both scripts, restricted to the five keys that a
metric set can actually contain (the pairwise script also lists `speedIndex`
and `fullyLoaded`, but `extractMetrics` never produces those keys, so the
lookup `metricUnits[metric] || ''` only ever hits these five). -/
def metricUnits : MetricName → String
  | MetricName.CLS => ""
  | _ => "ms"

/-- A metric set: one value per metric name.  Instantiated at
`Option ℚ` (numeric-or-null metric values) for the delta computations and at
`Option ℝ` for the scoring pipeline. -/
structure Metrics (α : Type) where
  TTFB : α
  FCP : α
  LCP : α
  TBT : α
  CLS : α
deriving DecidableEq

/-- Field lookup `metrics[metric]`. -/
def Metrics.get {α : Type} (ms : Metrics α) : MetricName → α
  | MetricName.TTFB => ms.TTFB
  | MetricName.FCP => ms.FCP
  | MetricName.LCP => ms.LCP
  | MetricName.TBT => ms.TBT
  | MetricName.CLS => ms.CLS

/-! ### JSON shape model for `extractMetrics`

A per-metric field of the `googleWebVitals` object is either absent, a raw
number, or an object carrying an optional numeric `median` sub-field — the
shapes the scripts' `gwv.x?.median || gwv.x || null` chains discriminate.
JavaScript truthiness of a number is `≠ 0` (NaN cannot arise from parsed
JSON here), and an object is always truthy. -/

/-- One field of a parsed `googleWebVitals` JSON object. -/
inductive GWVField where
  /-- the key is absent (`undefined`) -/
  | missing
  /-- the key holds a raw number -/
  | number (v : ℚ)
  /-- the key holds an object, with an optional numeric `median` sub-field -/
  | object (median : Option ℚ)
deriving DecidableEq

/-- The value `extractMetrics` stores for one metric: `null`, a number, or —
an artifact of the `||` fallback — the whole metric object itself. -/
inductive MetricVal where
  | null
  | num (v : ℚ)
  /-- the metric object itself was returned by the `|| gwv.x` fallback -/
  | obj (median : Option ℚ)
deriving DecidableEq

/-- The parsed `googleWebVitals` object: one field per known metric key. -/
structure GWV where
  ttfb : GWVField
  firstContentfulPaint : GWVField
  largestContentfulPaint : GWVField
  totalBlockingTime : GWVField
  cumulativeLayoutShift : GWVField
deriving DecidableEq

/-- The empty object `{}` (no metric keys present). -/
def emptyGWV : GWV :=
  ⟨GWVField.missing, GWVField.missing, GWVField.missing, GWVField.missing, GWVField.missing⟩

/-- A parsed top-level JSON document, as far as `extractMetrics` inspects it:
the results of the key chains `json.statistics?.googleWebVitals` and
`json.googleWebVitals` (`none` when the chain hits a missing key). -/
structure JsonDoc where
  statisticsGWV : Option GWV
  googleWebVitals : Option GWV
deriving DecidableEq

/-- Batch script, one field of `extractMetrics`' result:
`gwv.x?.median || gwv.x || null`.
* key absent: `undefined?.median` is `undefined` (falsy), `undefined` is
  falsy → `null`;
* raw number `v`: `v?.median` is `undefined`; then `v` itself is returned if
  truthy (`v ≠ 0`), else `null`;
* object with `median = v`: `v` is returned if truthy; a zero (or absent)
  median falls through to the object itself, which is always truthy. -/
def extractField : GWVField → MetricVal
  | GWVField.missing => MetricVal.null
  | GWVField.number v => if v = 0 then MetricVal.null else MetricVal.num v
  | GWVField.object (some v) => if v = 0 then MetricVal.obj (some v) else MetricVal.num v
  | GWVField.object none => MetricVal.obj none

/-- Pairwise script, one field of `extractMetrics`' result:
`gwv.x?.median || null` — only an object's truthy `median` survives. -/
def extractFieldPairwise : GWVField → MetricVal
  | GWVField.object (some v) => if v = 0 then MetricVal.null else MetricVal.num v
  | _ => MetricVal.null

/-- Batch script `extractMetrics`:
`const googleWebVitals = json.statistics?.googleWebVitals || json.googleWebVitals || {}`
followed by the five per-field `||` chains.  (Objects are always truthy, so
the first present alternative wins; `{}` has no keys.) -/
def extractMetrics (json : JsonDoc) : Metrics MetricVal :=
  let googleWebVitals := (json.statisticsGWV.or json.googleWebVitals).getD emptyGWV
  { TTFB := extractField googleWebVitals.ttfb
    FCP := extractField googleWebVitals.firstContentfulPaint
    LCP := extractField googleWebVitals.largestContentfulPaint
    TBT := extractField googleWebVitals.totalBlockingTime
    CLS := extractField googleWebVitals.cumulativeLayoutShift }

/-- Pairwise script `extractMetrics`:
`const googleWebVitals = json.googleWebVitals || {}` and `gwv.x?.median || null`. -/
def extractMetricsPairwise (json : JsonDoc) : Metrics MetricVal :=
  let googleWebVitals := json.googleWebVitals.getD emptyGWV
  { TTFB := extractFieldPairwise googleWebVitals.ttfb
    FCP := extractFieldPairwise googleWebVitals.firstContentfulPaint
    LCP := extractFieldPairwise googleWebVitals.largestContentfulPaint
    TBT := extractFieldPairwise googleWebVitals.totalBlockingTime
    CLS := extractFieldPairwise googleWebVitals.cumulativeLayoutShift }

/-! ### `loadJson`

Both scripts read and parse a JSON file inside `try { ... } catch`.  The
read-and-parse outcome is passed in as `Option JsonDoc` (`none` models a
thrown exception: unreadable file or invalid JSON).  The pairwise script's
catch block calls `process.exit(1)`; the batch script's returns `{}`. -/

/-- Result of a computation that may terminate the whole process. -/
inductive ProcResult (α : Type) where
  | exited (code : ℕ)
  | ok (val : α)
deriving DecidableEq

/-- `loadJson` of the pairwise script: on failure, `process.exit(1)`. -/
def loadJsonPairwise (parsed : Option JsonDoc) : ProcResult JsonDoc :=
  match parsed with
  | none => ProcResult.exited 1
  | some j => ProcResult.ok j

/-- `loadJson` of the batch script: on failure, `return {}` (a document with
no keys at all). -/
def loadJsonBatch (parsed : Option JsonDoc) : JsonDoc :=
  match parsed with
  | none => ⟨none, none⟩
  | some j => j

/-! ### Delta computation -/

/-- One row of the pairwise script's `compareMetrics` result. -/
structure PairRecord where
  metric : MetricName
  before : ℚ
  after : ℚ
  diff : ℚ
  pct : Option ℚ
  unit : String
deriving DecidableEq

/-- Pairwise script `compareMetrics`: for each metric key (in insertion
order), skip if either side is `null` (`b == null || a == null`), else push
`{metric, before, after, diff, pct, unit}` with
`pct = b === 0 ? null : (diff / b) * 100`. -/
def compareMetrics (before after : Metrics (Option ℚ)) : List PairRecord :=
  metricNames.filterMap fun metric =>
    match before.get metric, after.get metric with
    | some b, some a =>
        some { metric := metric, before := b, after := a, diff := a - b,
               pct := if b = 0 then none else some ((a - b) / b * 100),
               unit := metricUnits metric }
    | _, _ => none

/-- One row of the batch script's per-release `results[release]` list. -/
structure CompRecord where
  metric : MetricName
  value : ℚ
  unit : String
  diff : Option ℚ
  pct : Option ℚ
deriving DecidableEq

/-- Body of the inner `Object.keys(metrics).forEach` of `compareReleases`:
skip a `null` current value; otherwise `diff`/`pct` stay `null` unless the
previous release exists and has a non-`null` value for this metric, in which
case `diff = value - prev` and
`pct = prev === 0 ? null : (diff / prev) * 100`. -/
def recordsForRelease (prevMetrics : Option (Metrics (Option ℚ)))
    (metrics : Metrics (Option ℚ)) : List CompRecord :=
  metricNames.filterMap fun metric =>
    match metrics.get metric with
    | none => none
    | some value =>
        match prevMetrics with
        | some pm =>
            match pm.get metric with
            | some pv =>
                some { metric := metric, value := value, unit := metricUnits metric,
                       diff := some (value - pv),
                       pct := if pv = 0 then none else some ((value - pv) / pv * 100) }
            | none =>
                some { metric := metric, value := value, unit := metricUnits metric,
                       diff := none, pct := none }
        | none =>
            some { metric := metric, value := value, unit := metricUnits metric,
                   diff := none, pct := none }

/-- The `releases.forEach((release, idx) => ...)` loop of `compareReleases`:
`prevMetrics` is the metric set of the entry at `idx - 1` (or `null` at
`idx = 0`).  Release keys are represented by their numeric suffix (the batch
driver sorts directory names by `parseInt(name.split('-')[1])`); the list
order is the `Object.keys` insertion order of `metricsByRelease`. -/
def compareReleasesAux (prev : Option (Metrics (Option ℚ))) :
    List (ℕ × Metrics (Option ℚ)) → List (ℕ × List CompRecord)
  | [] => []
  | (r, ms) :: rest => (r, recordsForRelease prev ms) :: compareReleasesAux (some ms) rest

/-- Batch script `compareReleases` (its `results` component; the function
also echoes back `releases` and `metricsByRelease` unchanged). -/
def compareReleases (metricsByRelease : List (ℕ × Metrics (Option ℚ))) :
    List (ℕ × List CompRecord) :=
  compareReleasesAux none metricsByRelease

/-! ### `scoreMetric` (batch script; defined but with two identical branches) -/

/-- Batch script `scoreMetric`: linear threshold score.  Both branches of
`if (inverted)` contain character-for-character the same computation. -/
def scoreMetric (value : Option ℚ) (good poor : ℚ) (inverted : Bool) : Option ℤ :=
  match value with
  | none => none
  | some v =>
      if inverted then
        -- for CLS, lower is better
        if v ≤ good then some 100
        else if poor ≤ v then some 0
        else some (round ((poor - v) / (poor - good) * 100))
      else
        -- for ms metrics, lower is better
        if v ≤ good then some 100
        else if poor ≤ v then some 0
        else some (round ((poor - v) / (poor - good) * 100))

/-! ### Log-normal scoring pipeline (batch script)

`logNormalScore`, the Abramowitz–Stegun `erf` approximation and
`calculatePerfScore` call `Math.log` / `Math.exp` / `Math.sqrt`, so this part
of the embedding lives in `ℝ` (idealizing IEEE doubles as reals). -/

/-- The degree-5 polynomial factor of the Abramowitz–Stegun approximation,
with the source's coefficients and association:
`((((a5*t + a4)*t + a3)*t + a2)*t + a1) * t`. -/
noncomputable def erfPoly (t : ℝ) : ℝ :=
  ((((1.061405429 * t + -1.453152027) * t + 1.421413741) * t + -0.284496736) * t
      + 0.254829592) * t

/-- The `y` computed by `erf` after `x` has been replaced by `|x|`:
`1 - P(t) * Math.exp(-x*x)` with `t = 1 / (1 + p*x)`, `p = 0.3275911`. -/
noncomputable def erfAbs (x : ℝ) : ℝ :=
  1 - erfPoly (1 / (1 + 0.3275911 * x)) * Real.exp (-(x * x))

/-- Batch script `erf`: Abramowitz–Stegun rational approximation.
`sign = x >= 0 ? 1 : -1`, then `x = Math.abs(x)` and `sign * y`. -/
noncomputable def erf (x : ℝ) : ℝ :=
  (if 0 ≤ x then (1 : ℝ) else -1) * erfAbs |x|

/-- Batch script `logNormalScore`.  `median`/`podr` (the source's parameter
names) are the two calibration points; the score is
`Math.round((1 - Φ(z)) * 100)` with `Φ(z) = 0.5 * (1 + erf(z / √2))` and
`z = (log value - μ) / σ`, `μ = log median`, `σ = log 2 / (log podr - log median)`.
A `null` value yields `null`. -/
noncomputable def logNormalScore (value : Option ℝ) (median podr : ℝ) : Option ℤ :=
  match value with
  | none => none
  | some v =>
      let location := Real.log median
      let logDiff := Real.log podr - Real.log median
      let shape := Real.log 2 / logDiff
      let mu := location
      let sigma := shape
      let standardized := (Real.log v - mu) / sigma
      let phi := 0.5 * (1 + erf (standardized / Real.sqrt 2))
      some (round ((1 - phi) * 100))

/-- Contribution of one metric's score to the `total` accumulator of
`calculatePerfScore` (`0` when the score is `null` — the loop skips it). -/
noncomputable def weightedPart (s : Option ℤ) (w : ℝ) : ℝ :=
  match s with
  | some sc => (sc : ℝ) * w
  | none => 0

/-- Contribution of one metric's score to the `weightSum` accumulator. -/
noncomputable def weightPart (s : Option ℤ) (w : ℝ) : ℝ :=
  match s with
  | some _ => w
  | none => 0

/-- Batch script `calculatePerfScore`: per-metric log-normal scores with the
fixed reference pairs, then a weighted average over the non-`null` scores
with the Lighthouse weights `FCP 0.1, LCP 0.25, TBT 0.3, CLS 0.15, TTFB 0.2`
(the `for (const m in scores)` loop runs in that insertion order).
When every metric is `null`, `weightSum` is `0` and the JavaScript division
`0/0` yields `NaN` (and `Math.round(NaN)` is `NaN`); that `NaN` outcome is
modelled as `none`. -/
noncomputable def calculatePerfScore (metrics : Metrics (Option ℝ)) : Option ℤ :=
  let sFCP := logNormalScore metrics.FCP 1800 3000
  let sLCP := logNormalScore metrics.LCP 2500 4000
  let sTBT := logNormalScore metrics.TBT 300 600
  let sCLS := logNormalScore metrics.CLS 0.1 0.25
  let sTTFB := logNormalScore metrics.TTFB 800 1800
  let total := weightedPart sFCP 0.1 + weightedPart sLCP 0.25 + weightedPart sTBT 0.3
      + weightedPart sCLS 0.15 + weightedPart sTTFB 0.2
  let weightSum := weightPart sFCP 0.1 + weightPart sLCP 0.25 + weightPart sTBT 0.3
      + weightPart sCLS 0.15 + weightPart sTTFB 0.2
  if weightSum = 0 then none else some (round (total / weightSum))

/-- The score displayed by the batch script's `generateHtml`:
`const score = calculatePerfScore(lastMetrics) || 0;` — the `NaN` produced on
an all-`null` metric set is falsy and is coerced to `0`. -/
noncomputable def generateHtmlScore (lastMetrics : Metrics (Option ℝ)) : ℤ :=
  (calculatePerfScore lastMetrics).getD 0

/-- The `median` reference point `calculatePerfScore` passes to
`logNormalScore` for each metric. -/
noncomputable def medianRef : MetricName → ℝ
  | MetricName.FCP => 1800
  | MetricName.LCP => 2500
  | MetricName.TBT => 300
  | MetricName.CLS => 0.1
  | MetricName.TTFB => 800

/-- The `podr` ("poor") reference point `calculatePerfScore` passes to
`logNormalScore` for each metric. -/
noncomputable def poorRef : MetricName → ℝ
  | MetricName.FCP => 3000
  | MetricName.LCP => 4000
  | MetricName.TBT => 600
  | MetricName.CLS => 0.25
  | MetricName.TTFB => 1800

/-! ## Helper lemmas -/

/-- `Math.round` (= `round` here, round half up) is monotone. -/
theorem round_mono {x y : ℝ} (h : x ≤ y) : round x ≤ round y := by
  rw [round_eq, round_eq]
  exact Int.floor_le_floor (by linarith)

/-- The derivative polynomial of `erfPoly` is nonnegative on `[0, ∞)`
(sum-of-squares style certificate). -/
theorem erfPolyDeriv_nonneg (v : ℝ) (hv : 0 ≤ v) :
    0 ≤ 5.307027145 * v ^ 4 - 5.812608108 * v ^ 3 + 4.264241223 * v ^ 2
        - 0.568993472 * v + 0.254829592 := by
  nlinarith [sq_nonneg (v * v - 0.55 * v + 0.15), mul_nonneg (mul_nonneg hv hv) hv,
    sq_nonneg v]

/-- The Abramowitz–Stegun polynomial is monotone on `[0, ∞)`: the divided
difference equals the derivative at the midpoint plus a nonnegative
correction. -/
theorem erfPoly_mono {s u : ℝ} (h0 : 0 ≤ s) (h1 : s ≤ u) : erfPoly s ≤ erfPoly u := by
  have hx : 0 ≤ (s + u) / 2 := by linarith
  have hQ := erfPolyDeriv_nonneg ((s + u) / 2) hx
  have hD : 0 ≤ 1.421413741 - 2.906304054 * (s + u) + 2.91886492975 * (s + u) ^ 2
      - 1.061405429 * (s * u) := by
    nlinarith [sq_nonneg (s - u), sq_nonneg (s + u - 0.55)]
  have hus : 0 ≤ u - s := by linarith
  have hterm1 : 0 ≤ (u - s) * (5.307027145 * ((s + u) / 2) ^ 4
      - 5.812608108 * ((s + u) / 2) ^ 3 + 4.264241223 * ((s + u) / 2) ^ 2
      - 0.568993472 * ((s + u) / 2) + 0.254829592) := mul_nonneg hus hQ
  have hterm2 : 0 ≤ (u - s) * ((s - u) ^ 2 / 4 * (1.421413741 - 2.906304054 * (s + u)
      + 2.91886492975 * (s + u) ^ 2 - 1.061405429 * (s * u))) :=
    mul_nonneg hus (mul_nonneg (by positivity) hD)
  unfold erfPoly
  nlinarith [hterm1, hterm2]

theorem t_pos {x : ℝ} (hx : 0 ≤ x) : 0 < 1 / (1 + 0.3275911 * x) := by positivity

theorem t_le_one {x : ℝ} (hx : 0 ≤ x) : 1 / (1 + 0.3275911 * x) ≤ 1 := by
  rw [div_le_one (by positivity)]
  nlinarith

theorem erfPoly_nonneg {t : ℝ} (ht : 0 ≤ t) : 0 ≤ erfPoly t := by
  have h := erfPoly_mono (le_refl 0) ht
  have h0 : erfPoly 0 = 0 := by norm_num [erfPoly]
  linarith

theorem erfPoly_le_S {t : ℝ} (h0 : 0 ≤ t) (h1 : t ≤ 1) : erfPoly t ≤ 0.999999999 := by
  have h := erfPoly_mono h0 h1
  have h1' : erfPoly 1 = 0.999999999 := by norm_num [erfPoly]
  linarith

theorem exp_negsq_pos (x : ℝ) : 0 < Real.exp (-(x * x)) := Real.exp_pos _

theorem exp_negsq_le_one (x : ℝ) : Real.exp (-(x * x)) ≤ 1 := by
  rw [Real.exp_le_one_iff]
  nlinarith [mul_self_nonneg x]

/-- The `y` of the `erf` approximation is monotone on `[0, ∞)`: as `x` grows,
`t` shrinks (so `P(t)` shrinks) and `e^(-x²)` shrinks, and both factors are
nonnegative. -/
theorem erfAbs_mono {a b : ℝ} (ha : 0 ≤ a) (hab : a ≤ b) : erfAbs a ≤ erfAbs b := by
  unfold erfAbs
  have hb : 0 ≤ b := le_trans ha hab
  have htb : (1 : ℝ) / (1 + 0.3275911 * b) ≤ 1 / (1 + 0.3275911 * a) := by
    apply one_div_le_one_div_of_le (by positivity)
    nlinarith
  have hQ : erfPoly (1 / (1 + 0.3275911 * b)) ≤ erfPoly (1 / (1 + 0.3275911 * a)) :=
    erfPoly_mono (le_of_lt (t_pos hb)) htb
  have hE : Real.exp (-(b * b)) ≤ Real.exp (-(a * a)) := by
    rw [Real.exp_le_exp]
    nlinarith
  have := mul_le_mul hQ hE (le_of_lt (exp_negsq_pos b))
    (erfPoly_nonneg (le_of_lt (t_pos ha)))
  linarith

theorem erfAbs_bounds {x : ℝ} (hx : 0 ≤ x) : 0 < erfAbs x ∧ erfAbs x ≤ 1 := by
  unfold erfAbs
  constructor
  · have hQ := erfPoly_le_S (le_of_lt (t_pos hx)) (t_le_one hx)
    have hQ0 := erfPoly_nonneg (le_of_lt (t_pos hx))
    have hE := exp_negsq_le_one x
    nlinarith [exp_negsq_pos x]
  · have hQ0 := erfPoly_nonneg (le_of_lt (t_pos hx))
    nlinarith [exp_negsq_pos x]

/-- The approximated `erf` is monotone on all of `ℝ`. -/
theorem erf_mono {a b : ℝ} (hab : a ≤ b) : erf a ≤ erf b := by
  unfold erf
  by_cases ha : 0 ≤ a
  · have hb : 0 ≤ b := le_trans ha hab
    rw [if_pos ha, if_pos hb, abs_of_nonneg ha, abs_of_nonneg hb]
    simpa using erfAbs_mono ha hab
  · push_neg at ha
    rw [if_neg (not_le.mpr ha), abs_of_neg ha]
    by_cases hb : 0 ≤ b
    · rw [if_pos hb, abs_of_nonneg hb]
      have h1 := (erfAbs_bounds (by linarith : (0:ℝ) ≤ -a)).1
      have h2 := (erfAbs_bounds hb).1
      nlinarith
    · push_neg at hb
      rw [if_neg (not_le.mpr hb), abs_of_neg hb]
      have h := erfAbs_mono (by linarith : (0:ℝ) ≤ -b) (by linarith : -b ≤ -a)
      nlinarith

/-- The approximated `erf` stays within `[-1, 1]` (the property the missing
clamp in `logNormalScore` silently relies on). -/
theorem erf_mem (x : ℝ) : -1 ≤ erf x ∧ erf x ≤ 1 := by
  unfold erf
  by_cases hx : 0 ≤ x
  · rw [if_pos hx, abs_of_nonneg hx]
    have h := erfAbs_bounds hx
    constructor <;> nlinarith [h.1, h.2]
  · push_neg at hx
    rw [if_neg (not_le.mpr hx), abs_of_neg hx]
    have h := erfAbs_bounds (by linarith : (0:ℝ) ≤ -x)
    constructor <;> nlinarith [h.1, h.2]

/-- `erf 0 = 10⁻⁹` exactly: the five coefficients sum to `0.999999999`. -/
theorem erf_zero_eval : erf 0 = 0.000000001 := by
  unfold erf erfAbs
  rw [if_pos (le_refl (0:ℝ)), abs_zero]
  norm_num [erfPoly, Real.exp_zero]

theorem logNormalScore_some (v median podr : ℝ) :
    logNormalScore (some v) median podr =
      some (round ((1 - 0.5 * (1 + erf (((Real.log v - Real.log median) /
        (Real.log 2 / (Real.log podr - Real.log median))) / Real.sqrt 2))) * 100)) := rfl

/-- For any calibration pair, the median reference point scores exactly 50:
the standardized value is `0`, `erf 0 = 10⁻⁹`, and
`round(49.99999995) = 50`. -/
theorem logNormalScore_median (m p : ℝ) : logNormalScore (some m) m p = some 50 := by
  rw [logNormalScore_some, sub_self, zero_div, zero_div, erf_zero_eval]
  norm_num [round_eq]

/-- Any non-`null` value scores in `[0, 100]` (consequence of
`erf ∈ [-1, 1]`; no explicit clamp exists in the code). -/
theorem score_mem (v m p : ℝ) :
    ∃ s : ℤ, logNormalScore (some v) m p = some s ∧ 0 ≤ s ∧ s ≤ 100 := by
  rw [logNormalScore_some]
  refine ⟨_, rfl, ?_, ?_⟩
  · have h := erf_mem (((Real.log v - Real.log m) /
      (Real.log 2 / (Real.log p - Real.log m))) / Real.sqrt 2)
    have h0 : (0:ℤ) = round (0 : ℝ) := by norm_num [round_eq]
    rw [h0]
    apply round_mono
    nlinarith [h.2]
  · have h := erf_mem (((Real.log v - Real.log m) /
      (Real.log 2 / (Real.log p - Real.log m))) / Real.sqrt 2)
    have h100 : (100:ℤ) = round (100 : ℝ) := by norm_num [round_eq]
    rw [h100]
    apply round_mono
    nlinarith [h.1]

/-! ### Elementary numeric bounds on `exp`, `log` and `√2` -/

theorem exp_lower_pow (c : ℝ) (n : ℕ) (hn : n ≠ 0) (hc : 0 ≤ c) :
    (1 + c / n) ^ n ≤ Real.exp c := by
  have hcast : (n : ℝ) ≠ 0 := Nat.cast_ne_zero.mpr hn
  have h1 : 1 + c / n ≤ Real.exp (c / n) := by
    have := Real.add_one_le_exp (c / n); linarith
  have h2 : (0 : ℝ) ≤ 1 + c / n := by positivity
  calc (1 + c / n) ^ n ≤ Real.exp (c / n) ^ n := pow_le_pow_left h2 h1 n
    _ = Real.exp (n * (c / n)) := (Real.exp_nat_mul _ n).symm
    _ = Real.exp c := by rw [mul_comm, div_mul_cancel₀ _ hcast]

theorem exp_upper_pow (c : ℝ) (n : ℕ) (hn : n ≠ 0) (hlt : c / n < 1) :
    Real.exp c ≤ (1 / (1 - c / n)) ^ n := by
  have hcast : (n : ℝ) ≠ 0 := Nat.cast_ne_zero.mpr hn
  have hpos : 0 < 1 - c / n := by linarith
  have h1 : 1 - c / n ≤ Real.exp (-(c / n)) := by
    have := Real.add_one_le_exp (-(c / n)); linarith
  have h2 : Real.exp (c / n) ≤ 1 / (1 - c / n) := by
    rw [le_div_iff hpos]
    have h3 : Real.exp (c / n) * (1 - c / n) ≤ Real.exp (c / n) * Real.exp (-(c / n)) :=
      mul_le_mul_of_nonneg_left h1 (le_of_lt (Real.exp_pos _))
    rw [← Real.exp_add] at h3
    simpa using h3
  calc Real.exp c = Real.exp (n * (c / n)) := by rw [mul_comm, div_mul_cancel₀ _ hcast]
    _ = Real.exp (c / n) ^ n := Real.exp_nat_mul _ n
    _ ≤ (1 / (1 - c / n)) ^ n := pow_le_pow_left (le_of_lt (Real.exp_pos _)) h2 n

theorem exp_04_lt : Real.exp 0.4 < 1.6 := by
  calc Real.exp 0.4 ≤ (1 / (1 - (0.4 : ℝ) / 4)) ^ 4 :=
        exp_upper_pow 0.4 4 (by norm_num) (by norm_num)
    _ < 1.6 := by norm_num

theorem lt_exp_095 : (2.5 : ℝ) < Real.exp 0.95 := by
  calc (2.5 : ℝ) < (1 + (0.95 : ℝ) / 16) ^ 16 := by norm_num
    _ ≤ Real.exp 0.95 := exp_lower_pow 0.95 16 (by norm_num) (by norm_num)

/-- All five reference ratios `podr/median` lie in `[1.6, 2.5]`, so every
`log podr - log median` lies in `[0.4, 0.95]`. -/
theorem ratio_log_band (m p : ℝ) (hm : 0 < m) (hr1 : 1.6 ≤ p / m) (hr2 : p / m ≤ 2.5) :
    0.4 ≤ Real.log p - Real.log m ∧ Real.log p - Real.log m ≤ 0.95 := by
  have hp : 0 < p := by
    have h := div_mul_cancel₀ p (ne_of_gt hm)
    nlinarith
  have hpm : 0 < p / m := div_pos hp hm
  have hlog : Real.log p - Real.log m = Real.log (p / m) :=
    (Real.log_div (ne_of_gt hp) (ne_of_gt hm)).symm
  constructor
  · rw [hlog, Real.le_log_iff_exp_le hpm]
    have := exp_04_lt
    linarith
  · rw [hlog, Real.log_le_iff_le_exp hpm]
    have := lt_exp_095
    linarith

theorem sqrt2_bounds : 1.41421 < Real.sqrt 2 ∧ Real.sqrt 2 < 1.41422 := by
  constructor
  · rw [Real.lt_sqrt (by norm_num)]
    norm_num
  · rw [Real.sqrt_lt' (by norm_num)]
    norm_num

/-- The standardized argument of `erf` at the poor reference point is
`R²/(log 2 · √2)` with `R = log podr - log median`; for `R ∈ [0.4, 0.95]` it
lies in `[0.16, 0.93]`. -/
theorem w_band (R : ℝ) (h1 : 0.4 ≤ R) (h2 : R ≤ 0.95) :
    0.16 ≤ R * R / (Real.log 2 * Real.sqrt 2) ∧
      R * R / (Real.log 2 * Real.sqrt 2) ≤ 0.93 := by
  have hL1 := Real.log_two_gt_d9
  have hL2 := Real.log_two_lt_d9
  have hs := sqrt2_bounds
  have hLpos : (0 : ℝ) < Real.log 2 := by linarith
  have hspos : (0 : ℝ) < Real.sqrt 2 := by linarith [hs.1]
  have hpos : (0 : ℝ) < Real.log 2 * Real.sqrt 2 := mul_pos hLpos hspos
  have hup : Real.log 2 * Real.sqrt 2 ≤ 0.6931471808 * 1.41422 :=
    mul_le_mul (le_of_lt hL2) (le_of_lt hs.2) (le_of_lt hspos) (by norm_num)
  have hlo : (0.6931471803 : ℝ) * 1.41421 ≤ Real.log 2 * Real.sqrt 2 :=
    mul_le_mul (le_of_lt hL1) (le_of_lt hs.1) (by norm_num) (le_of_lt hLpos)
  constructor
  · rw [le_div_iff hpos]
    nlinarith
  · rw [div_le_iff hpos]
    nlinarith

/-- For arguments in `[0.16, 0.93]`, the approximated `erf` lies well inside
`(0, 1)`: between `0.024` and `0.942`. -/
theorem erf_band {w : ℝ} (h1 : 0.16 ≤ w) (h2 : w ≤ 0.93) :
    0.024 ≤ erf w ∧ erf w ≤ 0.942 := by
  have hw : (0 : ℝ) ≤ w := by linarith
  have herf : erf w = erfAbs w := by
    unfold erf
    rw [if_pos hw, abs_of_nonneg hw, one_mul]
  rw [herf]
  unfold erfAbs
  set t := 1 / (1 + 0.3275911 * w) with ht
  have htpos : 0 < t := t_pos hw
  have htone : t ≤ 1 := t_le_one hw
  have ht076 : (0.76 : ℝ) ≤ t := by
    rw [ht, le_div_iff (by positivity)]
    nlinarith
  have hQlo : (0.437 : ℝ) ≤ erfPoly t := by
    have h := erfPoly_mono (by norm_num : (0:ℝ) ≤ 0.76) ht076
    have h76 : (0.437 : ℝ) ≤ erfPoly 0.76 := by norm_num [erfPoly]
    linarith
  have hQhi : erfPoly t ≤ 0.999999999 := erfPoly_le_S (le_of_lt htpos) htone
  have hQnn : 0 ≤ erfPoly t := erfPoly_nonneg (le_of_lt htpos)
  have hElo : (0.135 : ℝ) ≤ Real.exp (-(w * w)) := by
    have := Real.add_one_le_exp (-(w * w))
    nlinarith
  have hEhi : Real.exp (-(w * w)) * (1 + w * w) ≤ 1 := by
    have h1' : w * w + 1 ≤ Real.exp (w * w) := Real.add_one_le_exp _
    have h2' : Real.exp (-(w * w)) * Real.exp (w * w) = 1 := by
      rw [← Real.exp_add]; norm_num
    nlinarith [Real.exp_pos (-(w * w))]
  have hEpos : 0 < Real.exp (-(w * w)) := Real.exp_pos _
  constructor
  · have hE' : Real.exp (-(w * w)) ≤ 0.976 := by nlinarith
    nlinarith
  · nlinarith

/-- Scores whose `erf` argument lands in the band of `erf_band` are between
1 and 49. -/
theorem score_band_of_erf {w : ℝ} (h1 : (0.024 : ℝ) ≤ erf w) (h2 : erf w ≤ 0.942) :
    1 ≤ round ((1 - 0.5 * (1 + erf w)) * 100) ∧
      round ((1 - 0.5 * (1 + erf w)) * 100) ≤ 49 := by
  constructor
  · have h : (1:ℤ) = round (0.8 : ℝ) := by norm_num [round_eq]
    rw [h]
    apply round_mono
    nlinarith
  · have h : (49:ℤ) = round (48.9 : ℝ) := by norm_num [round_eq]
    rw [h]
    apply round_mono
    nlinarith

/-- The poor reference point scores strictly between 0 and 50 — far from the
`≈ 0` a Lighthouse-calibrated curve would give. -/
theorem logNormalScore_poor (m p : ℝ)
    (h1 : 0.4 ≤ Real.log p - Real.log m) (h2 : Real.log p - Real.log m ≤ 0.95) :
    ∃ s : ℤ, logNormalScore (some p) m p = some s ∧ 1 ≤ s ∧ s ≤ 49 := by
  rw [logNormalScore_some]
  have hrw : (Real.log p - Real.log m) / (Real.log 2 / (Real.log p - Real.log m)) /
      Real.sqrt 2 = (Real.log p - Real.log m) * (Real.log p - Real.log m) /
        (Real.log 2 * Real.sqrt 2) := by
    rw [div_div_eq_mul_div, div_div]
  rw [hrw]
  have hw := w_band (Real.log p - Real.log m) h1 h2
  have hband := erf_band hw.1 hw.2
  have hscore := score_band_of_erf hband.1 hband.2
  exact ⟨_, rfl, hscore.1, hscore.2⟩

/-! ### Aggregate-score lemmas -/

theorem part_bounds (val : Option ℝ) (m p w : ℝ) (hw : 0 ≤ w) :
    0 ≤ weightedPart (logNormalScore val m p) w ∧
      weightedPart (logNormalScore val m p) w ≤
        100 * weightPart (logNormalScore val m p) w ∧
      0 ≤ weightPart (logNormalScore val m p) w := by
  cases val with
  | none => simp [logNormalScore, weightedPart, weightPart]
  | some v =>
      obtain ⟨s, hs, h0, h100⟩ := score_mem v m p
      rw [hs]
      refine ⟨?_, ?_, hw⟩
      · show (0 : ℝ) ≤ (s : ℝ) * w
        have hc : (0 : ℝ) ≤ (s : ℝ) := by exact_mod_cast h0
        positivity
      · show (s : ℝ) * w ≤ 100 * w
        have hc : (s : ℝ) ≤ 100 := by exact_mod_cast h100
        nlinarith

/-- With at least one non-`null` metric the weighted average is a defined
integer in `[0, 100]`. -/
theorem calculatePerfScore_mem (mets : Metrics (Option ℝ))
    (hne : mets.FCP ≠ none ∨ mets.LCP ≠ none ∨ mets.TBT ≠ none ∨ mets.CLS ≠ none ∨
      mets.TTFB ≠ none) :
    ∃ g : ℤ, calculatePerfScore mets = some g ∧ 0 ≤ g ∧ g ≤ 100 := by
  have pF := part_bounds mets.FCP 1800 3000 0.1 (by norm_num)
  have pL := part_bounds mets.LCP 2500 4000 0.25 (by norm_num)
  have pT := part_bounds mets.TBT 300 600 0.3 (by norm_num)
  have pC := part_bounds mets.CLS 0.1 0.25 0.15 (by norm_num)
  have pTt := part_bounds mets.TTFB 800 1800 0.2 (by norm_num)
  have hWpos : 0 < weightPart (logNormalScore mets.FCP 1800 3000) 0.1 +
      weightPart (logNormalScore mets.LCP 2500 4000) 0.25 +
      weightPart (logNormalScore mets.TBT 300 600) 0.3 +
      weightPart (logNormalScore mets.CLS 0.1 0.25) 0.15 +
      weightPart (logNormalScore mets.TTFB 800 1800) 0.2 := by
    rcases hne with h | h | h | h | h
    · obtain ⟨v, hv⟩ := Option.ne_none_iff_exists'.mp h
      have hone : weightPart (logNormalScore mets.FCP 1800 3000) 0.1 = 0.1 := by
        simp [hv, logNormalScore_some, weightPart]
      linarith [pL.2.2, pT.2.2, pC.2.2, pTt.2.2]
    · obtain ⟨v, hv⟩ := Option.ne_none_iff_exists'.mp h
      have hone : weightPart (logNormalScore mets.LCP 2500 4000) 0.25 = 0.25 := by
        simp [hv, logNormalScore_some, weightPart]
      linarith [pF.2.2, pT.2.2, pC.2.2, pTt.2.2]
    · obtain ⟨v, hv⟩ := Option.ne_none_iff_exists'.mp h
      have hone : weightPart (logNormalScore mets.TBT 300 600) 0.3 = 0.3 := by
        simp [hv, logNormalScore_some, weightPart]
      linarith [pF.2.2, pL.2.2, pC.2.2, pTt.2.2]
    · obtain ⟨v, hv⟩ := Option.ne_none_iff_exists'.mp h
      have hone : weightPart (logNormalScore mets.CLS 0.1 0.25) 0.15 = 0.15 := by
        simp [hv, logNormalScore_some, weightPart]
      linarith [pF.2.2, pL.2.2, pT.2.2, pTt.2.2]
    · obtain ⟨v, hv⟩ := Option.ne_none_iff_exists'.mp h
      have hone : weightPart (logNormalScore mets.TTFB 800 1800) 0.2 = 0.2 := by
        simp [hv, logNormalScore_some, weightPart]
      linarith [pF.2.2, pL.2.2, pT.2.2, pC.2.2]
  simp only [calculatePerfScore]
  rw [if_neg (ne_of_gt hWpos)]
  refine ⟨_, rfl, ?_, ?_⟩
  · have h0 : (0 : ℤ) = round (0 : ℝ) := by norm_num [round_eq]
    rw [h0]
    apply round_mono
    apply div_nonneg _ (le_of_lt hWpos)
    linarith [pF.1, pL.1, pT.1, pC.1, pTt.1]
  · have h100 : (100 : ℤ) = round (100 : ℝ) := by norm_num [round_eq]
    rw [h100]
    apply round_mono
    rw [div_le_iff hWpos]
    linarith [pF.2.1, pL.2.1, pT.2.1, pC.2.1, pTt.2.1]

/-! ### Structural lemmas for `compareReleases` -/

/-- Entry `idx + 1` of the result is computed against the entry at `idx` of
the input — the immediately preceding list entry, whatever the keys are. -/
theorem compareReleasesAux_adjacent :
    ∀ (l : List (ℕ × Metrics (Option ℚ))) (prev : Option (Metrics (Option ℚ)))
      (i : ℕ) (pe ce : ℕ × Metrics (Option ℚ)),
      l[i]? = some pe → l[i + 1]? = some ce →
      (compareReleasesAux prev l)[i + 1]? =
        some (ce.1, recordsForRelease (some pe.2) ce.2) := by
  intro l
  induction l with
  | nil => intro prev i pe ce h _; simp at h
  | cons x rest ih =>
      intro prev i pe ce h1 h2
      obtain ⟨r, ms⟩ := x
      cases i with
      | zero =>
          simp at h1
          cases rest with
          | nil => simp at h2
          | cons y r2 =>
              obtain ⟨r', ms'⟩ := y
              simp at h2
              subst h1 h2
              simp [compareReleasesAux]
      | succ j =>
          have h1' : rest[j]? = some pe := by simpa using h1
          have h2' : rest[j + 1]? = some ce := by simpa using h2
          simpa [compareReleasesAux] using ih (some ms) j pe ce h1' h2'

/-- Every result entry is the records of the corresponding input entry,
against some predecessor metric set. -/
theorem compareReleasesAux_get :
    ∀ (l : List (ℕ × Metrics (Option ℚ))) (prev : Option (Metrics (Option ℚ)))
      (i : ℕ) (ce : ℕ × Metrics (Option ℚ)),
      l[i]? = some ce →
      ∃ prev', (compareReleasesAux prev l)[i]? =
        some (ce.1, recordsForRelease prev' ce.2) := by
  intro l
  induction l with
  | nil => intro prev i ce h; simp at h
  | cons x rest ih =>
      intro prev i ce h
      obtain ⟨r, ms⟩ := x
      cases i with
      | zero =>
          simp at h
          subst h
          exact ⟨prev, by simp [compareReleasesAux]⟩
      | succ j =>
          have h' : rest[j]? = some ce := by simpa using h
          obtain ⟨prev', hp⟩ := ih (some ms) j ce h'
          exact ⟨prev', by simpa [compareReleasesAux] using hp⟩

/-- Records produced without a predecessor all carry `null` delta and
`null` percent delta. -/
theorem recordsForRelease_none_prev (ms : Metrics (Option ℚ)) :
    ∀ rec ∈ recordsForRelease none ms, rec.diff = none ∧ rec.pct = none := by
  intro rec hrec
  rw [recordsForRelease, List.mem_filterMap] at hrec
  obtain ⟨n, _, hn⟩ := hrec
  rcases hget : ms.get n with _ | v <;> rw [hget] at hn
  · simp at hn
  · simp at hn
    rw [← hn]
    exact ⟨rfl, rfl⟩

/-- Any record in a release's result row reports a metric whose current
value is present, and `value` is exactly that value. -/
theorem recordsForRelease_mem_char (prev : Option (Metrics (Option ℚ)))
    (ms : Metrics (Option ℚ)) (rec : CompRecord)
    (h : rec ∈ recordsForRelease prev ms) :
    ms.get rec.metric = some rec.value := by
  rw [recordsForRelease, List.mem_filterMap] at h
  obtain ⟨a, _, ha⟩ := h
  rcases hget : ms.get a with _ | v <;> rw [hget] at ha
  · simp at ha
  · rcases prev with _ | pm
    · simp at ha
      rw [← ha]
      exact hget
    · simp only at ha
      rcases hpget : pm.get a with _ | pv <;> rw [hpget] at ha
      · simp at ha
        rw [← ha]
        exact hget
      · simp at ha
        rw [← ha]
        exact hget

/-- If the current release's value for `n` is `null`, no record for `n` is
produced. -/
theorem recordsForRelease_curnull (prev : Option (Metrics (Option ℚ)))
    (ms : Metrics (Option ℚ)) (n : MetricName) (h : ms.get n = none) :
    ∀ rec ∈ recordsForRelease prev ms, rec.metric ≠ n := by
  intro rec hrec heq
  have hchar := recordsForRelease_mem_char prev ms rec hrec
  rw [heq, h] at hchar
  exact Option.noConfusion hchar

/-- If both the current and the previous values are present, the produced
record carries the exact delta and percent delta. -/
theorem recordsForRelease_mem_of (pm cm : Metrics (Option ℚ)) (n : MetricName)
    (v pv : ℚ) (hv : cm.get n = some v) (hpv : pm.get n = some pv) :
    ({ metric := n, value := v, unit := metricUnits n, diff := some (v - pv),
       pct := if pv = 0 then none else some ((v - pv) / pv * 100) } : CompRecord) ∈
      recordsForRelease (some pm) cm := by
  rw [recordsForRelease, List.mem_filterMap]
  refine ⟨n, ?_, ?_⟩
  · cases n <;> simp [metricNames]
  · rw [hv]
    simp only
    rw [hpv]

/-- If the current value is present but the previous one is `null`, a record
is still produced — with `null` delta and `null` percent delta. -/
theorem recordsForRelease_prevnull_mem (pm cm : Metrics (Option ℚ)) (n : MetricName)
    (v : ℚ) (hv : cm.get n = some v) (hpv : pm.get n = none) :
    ({ metric := n, value := v, unit := metricUnits n, diff := none,
       pct := none } : CompRecord) ∈ recordsForRelease (some pm) cm := by
  rw [recordsForRelease, List.mem_filterMap]
  refine ⟨n, ?_, ?_⟩
  · cases n <;> simp [metricNames]
  · rw [hv]
    simp only
    rw [hpv]

/-- `compareMetrics` record for a metric present on both sides. -/
theorem compareMetrics_mem_of (before after : Metrics (Option ℚ)) (n : MetricName)
    (b a : ℚ) (hb : before.get n = some b) (ha : after.get n = some a) :
    ({ metric := n, before := b, after := a, diff := a - b,
       pct := if b = 0 then none else some ((a - b) / b * 100),
       unit := metricUnits n } : PairRecord) ∈ compareMetrics before after := by
  rw [compareMetrics, List.mem_filterMap]
  refine ⟨n, ?_, ?_⟩
  · cases n <;> simp [metricNames]
  · rw [hb, ha]

/-- Any `compareMetrics` record reports a metric present on both sides,
with `before`/`after` exactly those values. -/
theorem compareMetrics_mem_char (before after : Metrics (Option ℚ)) (rec : PairRecord)
    (h : rec ∈ compareMetrics before after) :
    before.get rec.metric = some rec.before ∧ after.get rec.metric = some rec.after := by
  rw [compareMetrics, List.mem_filterMap] at h
  obtain ⟨m, _, hm⟩ := h
  rcases hgb : before.get m with _ | b <;> rw [hgb] at hm
  · simp at hm
  · rcases hga : after.get m with _ | a <;> rw [hga] at hm
    · simp at hm
    · simp at hm
      rw [← hm]
      exact ⟨hgb, hga⟩

/-- `compareMetrics` produces no record for a metric that is `null` on
either side. -/
theorem compareMetrics_nullskip (before after : Metrics (Option ℚ)) (n : MetricName)
    (h : before.get n = none ∨ after.get n = none) :
    ∀ rec ∈ compareMetrics before after, rec.metric ≠ n := by
  intro rec hrec heq
  have hchar := compareMetrics_mem_char before after rec hrec
  rw [heq] at hchar
  rcases h with h | h <;> rw [h] at hchar
  · exact Option.noConfusion hchar.1
  · exact Option.noConfusion hchar.2

/-! ## Claims -/

/-- C1: the claim says a reported zero metric value must be extracted as `0`,
distinct from `null`.  The code's `||`-chains violate this: a raw `0` is
falsy and collapses to `null` in both scripts, and in the batch script a
`median` of `0` falls through to the metric *object* itself; in neither case
is `0` returned.  This theorem evaluates `extractMetrics` at the failing
inputs `{"googleWebVitals": {"ttfb": 0}}` and
`{"googleWebVitals": {"ttfb": {"median": 0}}}`. -/
theorem claim1_reported_zero_not_preserved :
    (extractMetrics ⟨none, some ⟨GWVField.number 0, GWVField.missing, GWVField.missing,
        GWVField.missing, GWVField.missing⟩⟩).TTFB = MetricVal.null ∧
    (extractMetrics ⟨none, some ⟨GWVField.object (some 0), GWVField.missing,
        GWVField.missing, GWVField.missing, GWVField.missing⟩⟩).TTFB =
      MetricVal.obj (some 0) ∧
    (extractMetricsPairwise ⟨none, some ⟨GWVField.object (some 0), GWVField.missing,
        GWVField.missing, GWVField.missing, GWVField.missing⟩⟩).TTFB = MetricVal.null ∧
    MetricVal.null ≠ MetricVal.num 0 ∧ MetricVal.obj (some 0) ≠ MetricVal.num 0 := by
  refine ⟨?_, ?_, ?_, ?_, ?_⟩ <;> decide

/-- C2 counterexample: the claim asserts `logNormalScore` at the poor
reference returns approximately `0` within rounding; for the FCP pair
`(1800, 3000)` it does not return `0` (it returns 35). -/
theorem claim2_counterexample : ¬ (logNormalScore (some 3000) 1800 3000 = some 0) := by
  have hb := ratio_log_band 1800 3000 (by norm_num) (by norm_num) (by norm_num)
  obtain ⟨s, hs, h1, _⟩ := logNormalScore_poor 1800 3000 hb.1 hb.2
  intro h
  rw [h] at hs
  injection hs with hs
  omega

/-- C2 (amended): for each of the five fixed reference pairs,
`logNormalScore` at the median reference returns exactly 50; at the poor
reference it returns a score strictly between 0 and 50 (in `[1, 49]`), not
approximately 0. -/
theorem claim2_amended :
    (logNormalScore (some 1800) 1800 3000 = some 50 ∧
     logNormalScore (some 2500) 2500 4000 = some 50 ∧
     logNormalScore (some 300) 300 600 = some 50 ∧
     logNormalScore (some 0.1) 0.1 0.25 = some 50 ∧
     logNormalScore (some 800) 800 1800 = some 50) ∧
    ((∃ s : ℤ, logNormalScore (some 3000) 1800 3000 = some s ∧ 1 ≤ s ∧ s ≤ 49) ∧
     (∃ s : ℤ, logNormalScore (some 4000) 2500 4000 = some s ∧ 1 ≤ s ∧ s ≤ 49) ∧
     (∃ s : ℤ, logNormalScore (some 600) 300 600 = some s ∧ 1 ≤ s ∧ s ≤ 49) ∧
     (∃ s : ℤ, logNormalScore (some 0.25) 0.1 0.25 = some s ∧ 1 ≤ s ∧ s ≤ 49) ∧
     (∃ s : ℤ, logNormalScore (some 1800) 800 1800 = some s ∧ 1 ≤ s ∧ s ≤ 49)) := by
  have b1 := ratio_log_band 1800 3000 (by norm_num) (by norm_num) (by norm_num)
  have b2 := ratio_log_band 2500 4000 (by norm_num) (by norm_num) (by norm_num)
  have b3 := ratio_log_band 300 600 (by norm_num) (by norm_num) (by norm_num)
  have b4 := ratio_log_band 0.1 0.25 (by norm_num) (by norm_num) (by norm_num)
  have b5 := ratio_log_band 800 1800 (by norm_num) (by norm_num) (by norm_num)
  exact ⟨⟨logNormalScore_median 1800 3000, logNormalScore_median 2500 4000,
      logNormalScore_median 300 600, logNormalScore_median 0.1 0.25,
      logNormalScore_median 800 1800⟩,
    logNormalScore_poor 1800 3000 b1.1 b1.2, logNormalScore_poor 2500 4000 b2.1 b2.2,
    logNormalScore_poor 300 600 b3.1 b3.2, logNormalScore_poor 0.1 0.25 b4.1 b4.2,
    logNormalScore_poor 800 1800 b5.1 b5.2⟩

/-- C3: for every reference pair with `0 < median < poor` and positive metric
values `v1 ≤ v2`, the log-normal score is monotonically non-increasing:
`score(v2) ≤ score(v1)` (this rests on the Abramowitz–Stegun `erf`
approximation being monotone, proved in `erf_mono`). -/
theorem claim3_score_monotone (m p v1 v2 : ℝ) (hm : 0 < m) (hmp : m < p)
    (hv1 : 0 < v1) (hv : v1 ≤ v2) (s1 s2 : ℤ)
    (h1 : logNormalScore (some v1) m p = some s1)
    (h2 : logNormalScore (some v2) m p = some s2) : s2 ≤ s1 := by
  rw [logNormalScore_some] at h1 h2
  have hs1 : s1 = round ((1 - 0.5 * (1 + erf (((Real.log v1 - Real.log m) /
      (Real.log 2 / (Real.log p - Real.log m))) / Real.sqrt 2))) * 100) := by
    injection h1.symm
  have hs2 : s2 = round ((1 - 0.5 * (1 + erf (((Real.log v2 - Real.log m) /
      (Real.log 2 / (Real.log p - Real.log m))) / Real.sqrt 2))) * 100) := by
    injection h2.symm
  subst hs1 hs2
  have hR : 0 < Real.log p - Real.log m := by
    have := Real.log_lt_log hm hmp
    linarith
  have hL : (0 : ℝ) < Real.log 2 := by linarith [Real.log_two_gt_d9]
  have hsig : 0 < Real.log 2 / (Real.log p - Real.log m) := div_pos hL hR
  have hs2pos : 0 < Real.sqrt 2 := Real.sqrt_pos.mpr (by norm_num)
  have hlog : Real.log v1 ≤ Real.log v2 := Real.log_le_log hv1 hv
  have hz : (Real.log v1 - Real.log m) / (Real.log 2 / (Real.log p - Real.log m)) ≤
      (Real.log v2 - Real.log m) / (Real.log 2 / (Real.log p - Real.log m)) :=
    (div_le_div_right hsig).mpr (by linarith)
  have hw : ((Real.log v1 - Real.log m) / (Real.log 2 / (Real.log p - Real.log m))) /
      Real.sqrt 2 ≤ ((Real.log v2 - Real.log m) /
        (Real.log 2 / (Real.log p - Real.log m))) / Real.sqrt 2 :=
    (div_le_div_right hs2pos).mpr hz
  have herf := erf_mono hw
  apply round_mono
  nlinarith

/-- Witness for C3 at the concrete input `m = 1800`, `p = 3000`,
`v1 = v2 = 1800` (both scoring 50). -/
theorem claim3_witness :
    logNormalScore (some (1800 : ℝ)) 1800 3000 = some 50 ∧ (50 : ℤ) ≤ 50 :=
  ⟨logNormalScore_median 1800 3000,
   claim3_score_monotone 1800 3000 1800 1800 (by norm_num) (by norm_num) (by norm_num)
     le_rfl 50 50 (logNormalScore_median 1800 3000) (logNormalScore_median 1800 3000)⟩

/-- C4: in batch mode, on a release sequence sorted ascending by numeric
suffix, every record of the first release has `null` delta and `null`
percent delta, and for each later release with both values present the
record's delta is exactly `value(current) - value(previous)` where
`previous` is the immediately preceding entry of the sorted list — whatever
the numeric suffixes are (non-contiguous suffixes included). -/
theorem claim4_delta_prev_entry (l : List (ℕ × Metrics (Option ℚ)))
    (hsorted : List.Chain' (· < ·) (l.map Prod.fst)) :
    (∀ e ∈ (compareReleases l)[0]?, ∀ rec ∈ e.2, rec.diff = none ∧ rec.pct = none) ∧
    (∀ (i : ℕ) (pe ce : ℕ × Metrics (Option ℚ)) (re : ℕ × List CompRecord),
      l[i]? = some pe → l[i + 1]? = some ce → (compareReleases l)[i + 1]? = some re →
      ∀ (n : MetricName) (v pv : ℚ), ce.2.get n = some v → pe.2.get n = some pv →
        ({ metric := n, value := v, unit := metricUnits n, diff := some (v - pv),
           pct := if pv = 0 then none else some ((v - pv) / pv * 100) } :
          CompRecord) ∈ re.2) := by
  constructor
  · cases l with
    | nil => intro e he; simp [compareReleases, compareReleasesAux] at he
    | cons x rest =>
        obtain ⟨r, ms⟩ := x
        intro e he rec hrec
        have h0 : (compareReleases ((r, ms) :: rest))[0]? =
            some (r, recordsForRelease none ms) := by
          simp [compareReleases, compareReleasesAux]
        rw [h0] at he
        simp at he
        subst he
        exact recordsForRelease_none_prev ms rec hrec
  · intro i pe ce re h1 h2 h3 n v pv hv hpv
    have hadj := compareReleasesAux_adjacent l none i pe ce h1 h2
    rw [compareReleases] at h3
    rw [hadj] at h3
    injection h3 with h3
    rw [← h3]
    exact recordsForRelease_mem_of pe.2 ce.2 n v pv hv hpv

/-- Witness for C4 on the non-contiguous sorted sequence
`[release-28, release-30]`. -/
theorem claim4_witness :
    ({ metric := MetricName.TTFB, value := 90, unit := metricUnits MetricName.TTFB,
       diff := some ((90 : ℚ) - 100),
       pct := if (100 : ℚ) = 0 then none else some (((90 : ℚ) - 100) / 100 * 100) } :
      CompRecord) ∈
      ((30, recordsForRelease
          (some ⟨some 100, some 1900, some 2600, some 350, some (1/5)⟩)
          ⟨some 90, some 1800, some 2500, some 300, some (1/10)⟩) :
        ℕ × List CompRecord).2 :=
  (claim4_delta_prev_entry
      [(28, ⟨some 100, some 1900, some 2600, some 350, some (1/5)⟩),
       (30, ⟨some 90, some 1800, some 2500, some 300, some (1/10)⟩)]
      (by simp)).2 0
    (28, ⟨some 100, some 1900, some 2600, some 350, some (1/5)⟩)
    (30, ⟨some 90, some 1800, some 2500, some 300, some (1/10)⟩)
    (30, recordsForRelease (some ⟨some 100, some 1900, some 2600, some 350, some (1/5)⟩)
      ⟨some 90, some 1800, some 2500, some 300, some (1/10)⟩)
    rfl rfl rfl MetricName.TTFB 90 100 rfl rfl

/-- C5 counterexample: the claim says that when a metric is `null` in the
immediate predecessor, no comparison record is produced for that
release/metric pair.  Here release 28's `TTFB` is `null` and release 29's is
`5`, yet `compareReleases` *does* emit a record for `(29, TTFB)` — with
`null` delta — refuting the claim. -/
theorem claim5_counterexample :
    compareReleases [(28, ⟨none, none, none, none, none⟩),
        (29, ⟨some 5, none, none, none, none⟩)] =
      [(28, []), (29, [⟨MetricName.TTFB, 5, "ms", none, none⟩])] := by
  decide

/-- C5 (amended): a metric `null` in the *current* release yields no record
for that pair; a metric present in the current release but `null` in the
predecessor yields a record with `null` delta and `null` percent delta (not
a zero-delta record, and not nothing); in the pairwise script's
`compareMetrics`, a metric `null` on either side yields no record. -/
theorem claim5_amended :
    (∀ (l : List (ℕ × Metrics (Option ℚ))) (i : ℕ) (ce : ℕ × Metrics (Option ℚ))
        (re : ℕ × List CompRecord) (n : MetricName),
        l[i]? = some ce → (compareReleases l)[i]? = some re → ce.2.get n = none →
        ∀ rec ∈ re.2, rec.metric ≠ n) ∧
    (∀ (l : List (ℕ × Metrics (Option ℚ))) (i : ℕ) (pe ce : ℕ × Metrics (Option ℚ))
        (re : ℕ × List CompRecord) (n : MetricName) (v : ℚ),
        l[i]? = some pe → l[i + 1]? = some ce → (compareReleases l)[i + 1]? = some re →
        ce.2.get n = some v → pe.2.get n = none →
        ({ metric := n, value := v, unit := metricUnits n, diff := none,
           pct := none } : CompRecord) ∈ re.2) ∧
    (∀ (before after : Metrics (Option ℚ)) (n : MetricName),
        (before.get n = none ∨ after.get n = none) →
        ∀ rec ∈ compareMetrics before after, rec.metric ≠ n) := by
  refine ⟨?_, ?_, ?_⟩
  · intro l i ce re n h1 h2 hnull
    obtain ⟨prev', hp⟩ := compareReleasesAux_get l none i ce h1
    rw [compareReleases] at h2
    rw [hp] at h2
    injection h2 with h2
    rw [← h2]
    exact recordsForRelease_curnull prev' ce.2 n hnull
  · intro l i pe ce re n v h1 h2 h3 hv hpv
    have hadj := compareReleasesAux_adjacent l none i pe ce h1 h2
    rw [compareReleases] at h3
    rw [hadj] at h3
    injection h3 with h3
    rw [← h3]
    exact recordsForRelease_prevnull_mem pe.2 ce.2 n v hv hpv
  · exact compareMetrics_nullskip

/-- Witness for C5 (amended) on concrete two-release inputs. -/
theorem claim5_witness :
    (({ metric := MetricName.TTFB, value := 5, unit := metricUnits MetricName.TTFB,
        diff := none, pct := none } : CompRecord) ∈
      ((29, recordsForRelease (some ⟨none, none, none, none, none⟩)
          ⟨some 5, none, none, none, none⟩) : ℕ × List CompRecord).2) ∧
    (∀ rec ∈ compareMetrics ⟨none, none, none, none, none⟩
        ⟨some 5, none, none, none, none⟩, rec.metric ≠ MetricName.TTFB) :=
  ⟨claim5_amended.2.1
      [(28, ⟨none, none, none, none, none⟩), (29, ⟨some 5, none, none, none, none⟩)]
      0 (28, ⟨none, none, none, none, none⟩) (29, ⟨some 5, none, none, none, none⟩)
      (29, recordsForRelease (some ⟨none, none, none, none, none⟩)
        ⟨some 5, none, none, none, none⟩)
      MetricName.TTFB 5 rfl rfl rfl rfl rfl,
   claim5_amended.2.2 ⟨none, none, none, none, none⟩ ⟨some 5, none, none, none, none⟩
     MetricName.TTFB (Or.inl rfl)⟩

/-- C6: on an all-`null` metric set, `calculatePerfScore` divides `0/0`,
which is JavaScript `NaN` (modelled `none`) — no exception — and the caller
in `generateHtml` (`calculatePerfScore(lastMetrics) || 0`) coerces that
falsy `NaN` to the score `0`. -/
theorem claim6_allnull_nan_coerced :
    calculatePerfScore ⟨none, none, none, none, none⟩ = none ∧
    generateHtmlScore ⟨none, none, none, none, none⟩ = 0 := by
  constructor
  · simp [calculatePerfScore, logNormalScore, weightPart]
  · simp [generateHtmlScore, calculatePerfScore, logNormalScore, weightPart]

/-- C7: an unreadable/unparsable JSON file (`none` parse outcome) makes the
pairwise script's `loadJson` terminate the process with exit status 1
(non-zero), while the batch script's `loadJson` returns the empty document,
which `extractMetrics` degrades to the all-`null` metric set, so the rest of
the report is still produced. -/
theorem claim7_loadJson_asymmetry :
    loadJsonPairwise none = ProcResult.exited 1 ∧ (1 : ℕ) ≠ 0 ∧
    loadJsonBatch none = ⟨none, none⟩ ∧
    extractMetrics (loadJsonBatch none) =
      ⟨MetricVal.null, MetricVal.null, MetricVal.null, MetricVal.null, MetricVal.null⟩ :=
  ⟨rfl, by decide, rfl, rfl⟩

/-- C8: whenever the previous value for a metric is exactly 0 (and the
current value is present), the percent delta is the sentinel `null` — no
number, no exception — regardless of the current value; when the previous
value is non-zero, `percentDelta = ((current - previous) / previous) * 100`.
Holds in both the batch (`compareReleases`) and pairwise (`compareMetrics`)
scripts. -/
theorem claim8_percent_delta :
    (∀ (l : List (ℕ × Metrics (Option ℚ))) (i : ℕ) (pe ce : ℕ × Metrics (Option ℚ))
        (re : ℕ × List CompRecord) (n : MetricName) (v pv : ℚ),
        l[i]? = some pe → l[i + 1]? = some ce → (compareReleases l)[i + 1]? = some re →
        ce.2.get n = some v → pe.2.get n = some pv →
        (pv = 0 →
          ({ metric := n, value := v, unit := metricUnits n, diff := some (v - pv),
             pct := none } : CompRecord) ∈ re.2) ∧
        (pv ≠ 0 →
          ({ metric := n, value := v, unit := metricUnits n, diff := some (v - pv),
             pct := some ((v - pv) / pv * 100) } : CompRecord) ∈ re.2)) ∧
    (∀ (before after : Metrics (Option ℚ)) (n : MetricName) (b a : ℚ),
        before.get n = some b → after.get n = some a →
        (b = 0 →
          ({ metric := n, before := b, after := a, diff := a - b, pct := none,
             unit := metricUnits n } : PairRecord) ∈ compareMetrics before after) ∧
        (b ≠ 0 →
          ({ metric := n, before := b, after := a, diff := a - b,
             pct := some ((a - b) / b * 100), unit := metricUnits n } : PairRecord) ∈
            compareMetrics before after)) := by
  constructor
  · intro l i pe ce re n v pv h1 h2 h3 hv hpv
    have hadj := compareReleasesAux_adjacent l none i pe ce h1 h2
    rw [compareReleases] at h3
    rw [hadj] at h3
    injection h3 with h3
    rw [← h3]
    have hmem := recordsForRelease_mem_of pe.2 ce.2 n v pv hv hpv
    constructor
    · intro h
      simpa [h] using hmem
    · intro h
      simpa [h] using hmem
  · intro before after n b a hb ha
    have hmem := compareMetrics_mem_of before after n b a hb ha
    constructor
    · intro h
      simpa [h] using hmem
    · intro h
      simpa [h] using hmem

/-- Witness for C8: previous value 0 yields `null` percent delta; previous
value 2 yields `((3-2)/2)*100`. -/
theorem claim8_witness :
    (({ metric := MetricName.TTFB, value := 5, unit := metricUnits MetricName.TTFB,
        diff := some ((5 : ℚ) - 0), pct := none } : CompRecord) ∈
      ((29, recordsForRelease (some ⟨some 0, none, none, none, none⟩)
          ⟨some 5, none, none, none, none⟩) : ℕ × List CompRecord).2) ∧
    (({ metric := MetricName.TTFB, before := 2, after := 3, diff := (3 : ℚ) - 2,
        pct := some (((3 : ℚ) - 2) / 2 * 100), unit := metricUnits MetricName.TTFB } :
      PairRecord) ∈ compareMetrics ⟨some 2, none, none, none, none⟩
        ⟨some 3, none, none, none, none⟩) :=
  ⟨(claim8_percent_delta.1
      [(28, ⟨some 0, none, none, none, none⟩), (29, ⟨some 5, none, none, none, none⟩)]
      0 (28, ⟨some 0, none, none, none, none⟩) (29, ⟨some 5, none, none, none, none⟩)
      (29, recordsForRelease (some ⟨some 0, none, none, none, none⟩)
        ⟨some 5, none, none, none, none⟩)
      MetricName.TTFB 5 0 rfl rfl rfl rfl rfl).1 rfl,
   (claim8_percent_delta.2 ⟨some 2, none, none, none, none⟩
      ⟨some 3, none, none, none, none⟩ MetricName.TTFB 2 3 rfl rfl).2 (by norm_num)⟩

/-- C9: for a metric set whose present values are positive and with at least
one present metric, every per-metric `logNormalScore` is an integer in
`[0, 100]` and the weighted aggregate of `calculatePerfScore` is an integer
in `[0, 100]` — with no explicit clamp in the code, resting on the `erf`
approximation staying within `[-1, 1]` (`erf_mem`). -/
theorem claim9_score_range (mets : Metrics (Option ℝ))
    (_hpos : ∀ n v, mets.get n = some v → 0 < v)
    (hne : ∃ n, mets.get n ≠ none) :
    (∀ n v, mets.get n = some v →
      ∃ s : ℤ, logNormalScore (some v) (medianRef n) (poorRef n) = some s ∧
        0 ≤ s ∧ s ≤ 100) ∧
    (∃ g : ℤ, calculatePerfScore mets = some g ∧ 0 ≤ g ∧ g ≤ 100) := by
  constructor
  · intro n v _
    exact score_mem v (medianRef n) (poorRef n)
  · apply calculatePerfScore_mem
    obtain ⟨n, hn⟩ := hne
    cases n
    · exact Or.inr (Or.inr (Or.inr (Or.inr hn)))
    · exact Or.inl hn
    · exact Or.inr (Or.inl hn)
    · exact Or.inr (Or.inr (Or.inl hn))
    · exact Or.inr (Or.inr (Or.inr (Or.inl hn)))

/-- Witness for C9 at a concrete all-present positive metric set. -/
theorem claim9_witness :
    (∀ n v, (⟨some 1000, some 1900, some 2600, some 350, some 0.2⟩ :
        Metrics (Option ℝ)).get n = some v →
      ∃ s : ℤ, logNormalScore (some v) (medianRef n) (poorRef n) = some s ∧
        0 ≤ s ∧ s ≤ 100) ∧
    (∃ g : ℤ, calculatePerfScore
        ⟨some 1000, some 1900, some 2600, some 350, some 0.2⟩ = some g ∧
      0 ≤ g ∧ g ≤ 100) :=
  claim9_score_range ⟨some 1000, some 1900, some 2600, some 350, some 0.2⟩
    (by intro n v h; cases n <;> (simp [Metrics.get] at h; subst h; norm_num))
    ⟨MetricName.FCP, by simp [Metrics.get]⟩

/-- C10: the `inverted` parameter of `scoreMetric` has no effect — the two
branches of `if (inverted)` perform identical computations. -/
theorem claim10_inverted_no_effect (value : Option ℚ) (good poor : ℚ) :
    scoreMetric value good poor true = scoreMetric value good poor false := by
  cases value <;> rfl

end CompareResults
